import Mathlib

/-!
Verification of the password-construction core of the Random-Password-Generator
repository (`password_generator.py`, class `SecurePasswordGenerator`).

The embedding is a shallow one: the random source (`secrets.choice`,
`secrets.SystemRandom().shuffle`) is modelled as an oracle `g : Nat → Nat`
supplying an infinite stream of draws, consumed left to right; position `k`
indexes the next unread draw.  `secrets.choice(seq)` with oracle value `r`
returns `seq[r % len(seq)]`, and the shuffle is the Fisher–Yates loop that
Python's `random.shuffle` performs, its index draws taken from the same
stream.  The unbounded recursive retry of `generate_password` is embedded
with a fuel parameter: `GenResult.diverge` marks a run that has not finished
within the given number of attempts, so "the call never terminates on this
draw sequence" is expressed as "for every fuel the result is `diverge`".
Python `ValueError`s become the `invalidParam` constructor carrying the
message string of the `raise` statement.
-/

namespace SecurePasswordGenerator

/-- `self.lowercase = string.ascii_lowercase` (line 19). -/
def lowercase : List Char := "abcdefghijklmnopqrstuvwxyz".toList

/-- `self.uppercase = string.ascii_uppercase` (line 20). -/
def uppercase : List Char := "ABCDEFGHIJKLMNOPQRSTUVWXYZ".toList

/-- `self.digits = string.digits` (line 21). -/
def digits : List Char := "0123456789".toList

/-- `self.special_chars = "!@#$%^&*()_+-=[]{}|;:,.<>?"` (line 22). -/
def special_chars : List Char := "!@#$%^&*()_+-=[]\x7b\x7d|;:,.<>?".toList

/-- `secrets.choice(seq)`: the draw `r` from the oracle selects index
`r % len(seq)` (uniform over the sequence; the modulus keeps the embedding
total). -/
def choice (seq : List Char) (r : Nat) : Char :=
  seq.getD (r % seq.length) ' '

/-- One of the four `if use_...:` blocks of lines 52–66: when the flag is
set, append the class alphabet to `char_pool` and one `secrets.choice` from
that alphabet to `required_chars`, consuming one draw.  The state is
`(char_pool, required_chars, next draw position)`. -/
def classStep (g : Nat → Nat) (spec : Bool × List Char)
    (s : List Char × List Char × Nat) : List Char × List Char × Nat :=
  if spec.1 then (s.1 ++ spec.2, s.2.1 ++ [choice spec.2 (g s.2.2)], s.2.2 + 1)
  else s

/-- Runs the class blocks in program order. -/
def buildPR_go (g : Nat → Nat) :
    List (Bool × List Char) → (List Char × List Char × Nat) →
      List Char × List Char × Nat
  | [], s => s
  | spec :: rest, s => buildPR_go g rest (classStep g spec s)

/-- The four `(flag, alphabet)` pairs in the order the source tests them:
lowercase, uppercase, digits, special (lines 52–66). -/
def classSpecs (ul uu ud us : Bool) : List (Bool × List Char) :=
  [(ul, lowercase), (uu, uppercase), (ud, digits), (us, special_chars)]

/-- Lines 49–66: build `char_pool` and `required_chars` from position `k`. -/
def buildPR (g : Nat → Nat) (k : Nat) (ul uu ud us : Bool) :
    List Char × List Char × Nat :=
  buildPR_go g (classSpecs ul uu ud us) ([], [], k)

/-- Lines 75–76: `for _ in range(n): password.append(secrets.choice(char_pool))`.
Returns the appended characters and the next draw position. -/
def fillChars (g : Nat → Nat) (pool : List Char) (k : Nat) :
    Nat → List Char × Nat
  | 0 => ([], k)
  | n + 1 =>
    let c := choice pool (g k)
    let rest := fillChars g pool (k + 1) n
    (c :: rest.1, rest.2)

/-- Exchange the entries at positions `i` and `j` (no-op out of range). -/
def listSwap (l : List Char) (i j : Nat) : List Char :=
  match l[i]?, l[j]? with
  | some a, some b => (l.set i b).set j a
  | _, _ => l

/-- The Fisher–Yates loop of `random.shuffle`: for `i` from `len-1` down to
`1`, draw `j` uniform on `0..i` and swap positions `i` and `j`.  The first
argument of the recursion is `i`. -/
def shuffleGo (g : Nat → Nat) : Nat → Nat → List Char → List Char × Nat
  | 0, k, l => (l, k)
  | i + 1, k, l =>
    shuffleGo g i (k + 1) (listSwap l (i + 1) (g k % (i + 2)))

/-- Line 79: `secrets.SystemRandom().shuffle(password)`. -/
def shuffle (g : Nat → Nat) (k : Nat) (l : List Char) : List Char × Nat :=
  shuffleGo g (l.length - 1) k l

/-- Lines 103–106: the indexed scan for three consecutive character codes in
strict ascending succession, written structurally over the character list. -/
def seqCheck : List Char → Bool
  | a :: b :: c :: rest =>
    (b.toNat == a.toNat + 1 && c.toNat == a.toNat + 2) || seqCheck (b :: c :: rest)
  | _ => false

/-- Line 109: `re.search(r'(.)\1{2,}', password)` — some character occurs
three (or more) times consecutively, i.e. some window of three equal
consecutive characters exists.  The regex dot `(.)` does not match a
newline (no `re.DOTALL`), so a run of newlines is NOT matched; the guard
`!(a == '\n')` reproduces that exclusion. -/
def repCheck : List Char → Bool
  | a :: b :: c :: rest =>
    (!(a == '\n') && a == b && b == c) || repCheck (b :: c :: rest)
  | _ => false

/-- Line 113: `common_patterns = ['123', '321', 'abc', 'cba', 'qwe', 'asd', 'zxc']`. -/
def common_patterns : List (List Char) :=
  [ "123".toList, "321".toList, "abc".toList, "cba".toList,
    "qwe".toList, "asd".toList, "zxc".toList ]

/-- Python's `in` on strings: `pat` occurs as a contiguous substring. -/
def hasSub (pat : List Char) : List Char → Bool
  | [] => pat.isEmpty
  | c :: rest => pat.isPrefixOf (c :: rest) || hasSub pat rest

/-- Line 114: `password.lower()` (character-wise ASCII fold). -/
def strLower (l : List Char) : List Char := l.map Char.toLower

/-- Lines 92–119: `_has_predictable_patterns`.  The three checks are
combined by short-circuit disjunction exactly as the early returns do. -/
def has_predictable_patterns (password : String) : Bool :=
  seqCheck password.data || repCheck password.data ||
    common_patterns.any (fun pat => hasSub pat (strLower password.data))

/-- Outcome of one call to `generate_password`. -/
inductive GenResult where
  | ok (password : String)
  | invalidParam (msg : String)
  | diverge
deriving DecidableEq, Repr

/-- Lines 48–82, one attempt: build `char_pool`/`required_chars`, append the
`length - len(required_chars)` filler draws, shuffle, and return the
character list of `final_password` together with the next draw position. -/
def attempt (g : Nat → Nat) (k length : Nat) (ul uu ud us : Bool) :
    List Char × Nat :=
  let s := buildPR g k ul uu ud us
  let f := fillChars g s.1 s.2.2 (length - s.2.1.length)
  shuffle g f.2 (s.2.1 ++ f.1)

/-- Lines 24–90: `generate_password(length, use_uppercase, use_lowercase,
use_digits, use_special)`.  Arguments after the fuel: draw position `k`,
`length`, and the four flags in the Python parameter order.  The recursive
retry of lines 85–88 decrements the fuel; the pair's second component is the
draw position after the call. -/
def generate_password (g : Nat → Nat) :
    Nat → Nat → Nat → Bool → Bool → Bool → Bool → GenResult × Nat
  | 0, k, _, _, _, _, _ => (.diverge, k)
  | fuel + 1, k, length, uu, ul, ud, us =>
    if length < 4 then
      (.invalidParam "Password length must be at least 4 characters", k)
    else if (buildPR g k ul uu ud us).1.isEmpty then
      (.invalidParam "At least one character type must be selected",
        (buildPR g k ul uu ud us).2.2)
    else
      let sh := attempt g k length ul uu ud us
      if has_predictable_patterns (String.mk sh.1) then
        generate_password g fuel sh.2 length uu ul ud us
      else
        (.ok (String.mk sh.1), sh.2)

/-- Outcome of `generate_multiple_passwords`. -/
inductive MultiResult where
  | ok (passwords : List String)
  | invalidParam (msg : String)
  | diverge
deriving DecidableEq, Repr

/-- The loop of lines 135–137: build the password list in order, propagating
any exception (or divergence) of an individual call immediately. -/
def genMultiGo (g : Nat → Nat) (fuel length : Nat) (uu ul ud us : Bool) :
    Nat → Nat → MultiResult × Nat
  | 0, k => (.ok [], k)
  | n + 1, k =>
    match generate_password g fuel k length uu ul ud us with
    | (.ok p, k1) =>
      match genMultiGo g fuel length uu ul ud us n k1 with
      | (.ok ps, k2) => (.ok (p :: ps), k2)
      | r => r
    | (.invalidParam m, k1) => (.invalidParam m, k1)
    | (.diverge, k1) => (.diverge, k1)

/-- Lines 121–139: `generate_multiple_passwords(count, **kwargs)`. -/
def generate_multiple_passwords (g : Nat → Nat) (fuel k count length : Nat)
    (uu ul ud us : Bool) : MultiResult × Nat :=
  if count < 1 then (.invalidParam "Count must be at least 1", k)
  else genMultiGo g fuel length uu ul ud us count k

/-- The call at draw position `k` never returns, whatever attempt budget it
is granted: every fuel value ends in `diverge`. -/
def neverTerminates (g : Nat → Nat) (k length : Nat)
    (uu ul ud us : Bool) : Prop :=
  ∀ fuel, (generate_password g fuel k length uu ul ud us).1 = GenResult.diverge

/-! ### Helper lemmas: draws and pool construction -/

lemma choice_mem (seq : List Char) (h : seq ≠ []) (r : Nat) :
    choice seq r ∈ seq := by
  have hlen : 0 < seq.length := List.length_pos.2 h
  have hlt : r % seq.length < seq.length := Nat.mod_lt _ hlen
  unfold choice
  rw [List.getD_eq_getElem?_getD, List.getElem?_eq_getElem hlt]
  exact List.getElem_mem hlt

lemma buildPR_go_pool_mono (g : Nat → Nat) :
    ∀ (specs : List (Bool × List Char)) (s : List Char × List Char × Nat)
      (c : Char), c ∈ s.1 → c ∈ (buildPR_go g specs s).1
  | [], _, _, hc => hc
  | sp :: rest, s, c, hc => by
    apply buildPR_go_pool_mono g rest
    unfold classStep
    split
    · exact List.mem_append_left _ hc
    · exact hc

lemma buildPR_go_req_mono (g : Nat → Nat) :
    ∀ (specs : List (Bool × List Char)) (s : List Char × List Char × Nat)
      (c : Char), c ∈ s.2.1 → c ∈ (buildPR_go g specs s).2.1
  | [], _, _, hc => hc
  | sp :: rest, s, c, hc => by
    apply buildPR_go_req_mono g rest
    unfold classStep
    split
    · exact List.mem_append_left _ hc
    · exact hc

lemma buildPR_go_req_pool (g : Nat → Nat) :
    ∀ (specs : List (Bool × List Char)) (s : List Char × List Char × Nat),
      (∀ sp ∈ specs, sp.2 ≠ []) →
      (∀ c ∈ s.2.1, c ∈ s.1) →
      ∀ c ∈ (buildPR_go g specs s).2.1, c ∈ (buildPR_go g specs s).1
  | [], _, _, hs, c, hc => hs c hc
  | sp :: rest, s, hne, hs, c, hc => by
    refine buildPR_go_req_pool g rest (classStep g sp s)
      (fun q hq => hne q (List.mem_cons_of_mem _ hq)) ?_ c hc
    intro d hd
    by_cases hflag : sp.1
    · simp only [classStep, if_pos hflag, List.mem_append,
        List.mem_singleton] at hd ⊢
      rcases hd with hd | hd
      · exact Or.inl (hs d hd)
      · subst hd
        exact Or.inr (choice_mem _ (hne sp (List.mem_cons_self _ _)) _)
    · simp only [classStep, if_neg hflag] at hd ⊢
      exact hs d hd

lemma buildPR_go_rep (g : Nat → Nat) :
    ∀ (specs : List (Bool × List Char)) (s : List Char × List Char × Nat)
      (alpha : List Char), (true, alpha) ∈ specs → alpha ≠ [] →
      ∃ c ∈ (buildPR_go g specs s).2.1, c ∈ alpha
  | [], _, _, hmem, _ => by cases hmem
  | sp :: rest, s, alpha, hmem, hne => by
    rcases List.mem_cons.1 hmem with hsp | hsp
    · refine ⟨choice alpha (g s.2.2), ?_, choice_mem _ hne _⟩
      apply buildPR_go_req_mono g rest
      unfold classStep
      rw [← hsp]
      simp
    · exact buildPR_go_rep g rest (classStep g sp s) alpha hsp hne

lemma buildPR_go_pool_mem (g : Nat → Nat) :
    ∀ (specs : List (Bool × List Char)) (s : List Char × List Char × Nat)
      (c : Char),
      (c ∈ (buildPR_go g specs s).1 ↔
        c ∈ s.1 ∨ ∃ sp ∈ specs, sp.1 = true ∧ c ∈ sp.2)
  | [], s, c => by simp [buildPR_go]
  | sp :: rest, s, c => by
    rw [buildPR_go, buildPR_go_pool_mem g rest]
    unfold classStep
    by_cases hflag : sp.1
    · simp only [if_pos hflag, List.mem_append, List.mem_cons]
      constructor
      · rintro (⟨h | h⟩ | h)
        · exact Or.inl h
        · exact Or.inr ⟨sp, Or.inl rfl, hflag, h⟩
        · rcases h with ⟨q, hq, hq1, hq2⟩
          exact Or.inr ⟨q, Or.inr hq, hq1, hq2⟩
      · rintro (h | ⟨q, hq | hq, hq1, hq2⟩)
        · exact Or.inl (Or.inl h)
        · subst hq; exact Or.inl (Or.inr hq2)
        · exact Or.inr ⟨q, hq, hq1, hq2⟩
    · simp only [if_neg hflag, List.mem_cons]
      constructor
      · rintro (h | h)
        · exact Or.inl h
        · rcases h with ⟨q, hq, hq1, hq2⟩
          exact Or.inr ⟨q, Or.inr hq, hq1, hq2⟩
      · rintro (h | ⟨q, hq | hq, hq1, hq2⟩)
        · exact Or.inl h
        · subst hq; exact absurd hq1 hflag
        · exact Or.inr ⟨q, hq, hq1, hq2⟩

lemma buildPR_go_req_len (g : Nat → Nat) :
    ∀ (specs : List (Bool × List Char)) (s : List Char × List Char × Nat),
      (buildPR_go g specs s).2.1.length =
        s.2.1.length + specs.countP (fun sp => sp.1)
  | [], s => by simp [buildPR_go]
  | sp :: rest, s => by
    rw [buildPR_go, buildPR_go_req_len g rest, List.countP_cons]
    unfold classStep
    by_cases hflag : sp.1
    · simp [hflag]
      omega
    · simp [hflag]

lemma classSpecs_alphabets_ne_nil (ul uu ud us : Bool) :
    ∀ sp ∈ classSpecs ul uu ud us, sp.2 ≠ [] := by
  intro sp hsp
  simp only [classSpecs, List.mem_cons, List.not_mem_nil, or_false] at hsp
  rcases hsp with h | h | h | h <;> subst h
  · exact (by decide : lowercase ≠ [])
  · exact (by decide : uppercase ≠ [])
  · exact (by decide : digits ≠ [])
  · exact (by decide : special_chars ≠ [])

lemma buildPR_pool_mem (g : Nat → Nat) (k : Nat) (ul uu ud us : Bool)
    (c : Char) :
    c ∈ (buildPR g k ul uu ud us).1 ↔
      (ul = true ∧ c ∈ lowercase) ∨ (uu = true ∧ c ∈ uppercase) ∨
      (ud = true ∧ c ∈ digits) ∨ (us = true ∧ c ∈ special_chars) := by
  rw [buildPR, buildPR_go_pool_mem]
  simp [classSpecs]

lemma buildPR_req_pool (g : Nat → Nat) (k : Nat) (ul uu ud us : Bool) :
    ∀ c ∈ (buildPR g k ul uu ud us).2.1, c ∈ (buildPR g k ul uu ud us).1 :=
  buildPR_go_req_pool g _ _ (classSpecs_alphabets_ne_nil ul uu ud us)
    (by intro c hc; cases hc)

lemma buildPR_rep {flag : Bool} {alpha : List Char} (g : Nat → Nat) (k : Nat)
    (ul uu ud us : Bool) (hflag : flag = true)
    (hmem : (flag, alpha) ∈ classSpecs ul uu ud us) (hne : alpha ≠ []) :
    ∃ c ∈ (buildPR g k ul uu ud us).2.1, c ∈ alpha := by
  subst hflag
  exact buildPR_go_rep g _ _ alpha hmem hne

lemma buildPR_req_len_le (g : Nat → Nat) (k : Nat) (ul uu ud us : Bool) :
    (buildPR g k ul uu ud us).2.1.length ≤ 4 := by
  rw [buildPR, buildPR_go_req_len]
  have h := List.countP_le_length (l := classSpecs ul uu ud us)
    (p := fun sp => sp.1)
  simp only [classSpecs, List.length_cons, List.length_nil] at h
  simpa using h

lemma buildPR_pool_empty (g : Nat → Nat) (k : Nat) (ul uu ud us : Bool) :
    (buildPR g k ul uu ud us).1.isEmpty = true ↔
      (ul = false ∧ uu = false ∧ ud = false ∧ us = false) := by
  rw [List.isEmpty_iff, List.eq_nil_iff_forall_not_mem]
  constructor
  · intro h
    refine ⟨?_, ?_, ?_, ?_⟩ <;> by_contra hf <;>
      simp only [Bool.not_eq_false] at hf
    · exact h 'a' ((buildPR_pool_mem g k ul uu ud us 'a').2
        (Or.inl ⟨hf, by decide⟩))
    · exact h 'A' ((buildPR_pool_mem g k ul uu ud us 'A').2
        (Or.inr (Or.inl ⟨hf, by decide⟩)))
    · exact h '0' ((buildPR_pool_mem g k ul uu ud us '0').2
        (Or.inr (Or.inr (Or.inl ⟨hf, by decide⟩))))
    · exact h '!' ((buildPR_pool_mem g k ul uu ud us '!').2
        (Or.inr (Or.inr (Or.inr ⟨hf, by decide⟩))))
  · rintro ⟨h1, h2, h3, h4⟩ c hc
    rw [buildPR_pool_mem] at hc
    subst h1; subst h2; subst h3; subst h4
    simp at hc

/-! ### Helper lemmas: filler draws -/

lemma fillChars_length (g : Nat → Nat) (pool : List Char) :
    ∀ (n k : Nat), (fillChars g pool k n).1.length = n
  | 0, _ => rfl
  | n + 1, k => by
    simp only [fillChars, List.length_cons]
    rw [fillChars_length g pool n (k + 1)]

lemma fillChars_mem (g : Nat → Nat) (pool : List Char) (hpool : pool ≠ []) :
    ∀ (n k : Nat), ∀ c ∈ (fillChars g pool k n).1, c ∈ pool
  | 0, _, _, hc => by cases hc
  | n + 1, k, c, hc => by
    simp only [fillChars, List.mem_cons] at hc
    rcases hc with hc | hc
    · subst hc; exact choice_mem pool hpool _
    · exact fillChars_mem g pool hpool n (k + 1) c hc

/-! ### Helper lemmas: the shuffle is a permutation -/

lemma count_set_eq (x b : Char) :
    ∀ (l : List Char) (i : Nat) (a : Char), l[i]? = some a →
      (l.set i b).count x + (if a = x then 1 else 0) =
        l.count x + (if b = x then 1 else 0)
  | [], i, a, h => by simp at h
  | c :: t, 0, a, h => by
    simp only [List.getElem?_cons_zero, Option.some.injEq] at h
    rw [List.set_cons_zero, ← h]
    simp only [List.count_cons]
    rcases Decidable.em (c = x) with hc | hc <;>
      rcases Decidable.em (b = x) with hb | hb <;>
      simp [hc, hb, Ne.symm]
  | c :: t, i + 1, a, h => by
    simp only [List.getElem?_cons_succ] at h
    simp only [List.set_cons_succ, List.count_cons]
    have := count_set_eq x b t i a h
    omega

lemma listSwap_perm (l : List Char) (i j : Nat) :
    List.Perm (listSwap l i j) l := by
  unfold listSwap
  rcases hi : l[i]? with _ | a
  · exact List.Perm.refl l
  rcases hj : l[j]? with _ | b
  · exact List.Perm.refl l
  show List.Perm ((l.set i b).set j a) l
  rw [List.perm_iff_count]
  intro x
  have hjlen : j < l.length := (List.getElem?_eq_some_iff.1 hj).1
  have hjset : (l.set i b)[j]? = some b := by
    rcases Decidable.em (i = j) with hij | hij
    · subst hij
      exact List.getElem?_set_self hjlen
    · rw [List.getElem?_set_ne hij, hj]
  have e1 := count_set_eq x a (l.set i b) j b hjset
  have e2 := count_set_eq x b l i a hi
  omega

lemma shuffleGo_perm (g : Nat → Nat) :
    ∀ (i k : Nat) (l : List Char), List.Perm (shuffleGo g i k l).1 l
  | 0, _, l => List.Perm.refl l
  | i + 1, k, l =>
    (shuffleGo_perm g i (k + 1) _).trans (listSwap_perm l (i + 1) _)

lemma shuffle_perm (g : Nat → Nat) (k : Nat) (l : List Char) :
    List.Perm (shuffle g k l).1 l :=
  shuffleGo_perm g (l.length - 1) k l

/-! ### Helper lemmas: properties of one attempt -/

lemma attempt_length (g : Nat → Nat) (k length : Nat) (ul uu ud us : Bool)
    (h4 : 4 ≤ length) :
    (attempt g k length ul uu ud us).1.length = length := by
  unfold attempt
  rw [(shuffle_perm _ _ _).length_eq, List.length_append, fillChars_length]
  have := buildPR_req_len_le g k ul uu ud us
  omega

lemma attempt_mem (g : Nat → Nat) (k length : Nat) (ul uu ud us : Bool)
    (hne : (buildPR g k ul uu ud us).1 ≠ []) :
    ∀ c ∈ (attempt g k length ul uu ud us).1,
      (ul = true ∧ c ∈ lowercase) ∨ (uu = true ∧ c ∈ uppercase) ∨
      (ud = true ∧ c ∈ digits) ∨ (us = true ∧ c ∈ special_chars) := by
  intro c hc
  rw [← buildPR_pool_mem g k ul uu ud us c]
  have hc2 := (shuffle_perm g _ _).mem_iff.1 hc
  rcases List.mem_append.1 hc2 with hreq | hfill
  · exact buildPR_req_pool g k ul uu ud us c hreq
  · exact fillChars_mem g _ hne _ _ c hfill

lemma attempt_rep {flag : Bool} {alpha : List Char} (g : Nat → Nat)
    (k length : Nat) (ul uu ud us : Bool) (hflag : flag = true)
    (hmem : (flag, alpha) ∈ classSpecs ul uu ud us) (hne : alpha ≠ []) :
    ∃ c ∈ (attempt g k length ul uu ud us).1, c ∈ alpha := by
  obtain ⟨c, hcreq, hcalpha⟩ := buildPR_rep g k ul uu ud us hflag hmem hne
  refine ⟨c, ?_, hcalpha⟩
  exact (shuffle_perm g _ _).mem_iff.2 (List.mem_append_left _ hcreq)

/-! ### Helper lemmas: outcomes of `generate_password` -/

lemma gen_ok_props (g : Nat → Nat) (length : Nat) (uu ul ud us : Bool)
    (h4 : 4 ≤ length) :
    ∀ (fuel k k₂ : Nat) (p : String),
      generate_password g fuel k length uu ul ud us = (GenResult.ok p, k₂) →
      p.length = length ∧
      (∀ c ∈ p.data,
        (ul = true ∧ c ∈ lowercase) ∨ (uu = true ∧ c ∈ uppercase) ∨
        (ud = true ∧ c ∈ digits) ∨ (us = true ∧ c ∈ special_chars)) ∧
      (ul = true → ∃ c ∈ p.data, c ∈ lowercase) ∧
      (uu = true → ∃ c ∈ p.data, c ∈ uppercase) ∧
      (ud = true → ∃ c ∈ p.data, c ∈ digits) ∧
      (us = true → ∃ c ∈ p.data, c ∈ special_chars) ∧
      has_predictable_patterns p = false
  | 0, k, k₂, p, h => by simp [generate_password] at h
  | fuel + 1, k, k₂, p, h => by
    rw [generate_password] at h
    rw [if_neg (by omega)] at h
    by_cases hempty : (buildPR g k ul uu ud us).1.isEmpty
    · rw [if_pos hempty] at h
      simp at h
    · rw [if_neg hempty] at h
      simp only [] at h
      by_cases hpat :
          has_predictable_patterns
            (String.mk (attempt g k length ul uu ud us).1)
      · rw [if_pos hpat] at h
        exact gen_ok_props g length uu ul ud us h4 fuel _ k₂ p h
      · rw [if_neg hpat] at h
        have hp : p = String.mk (attempt g k length ul uu ud us).1 := by
          have := congrArg Prod.fst h
          simp at this
          exact this.symm
        subst hp
        have hne : (buildPR g k ul uu ud us).1 ≠ [] := by
          intro hnil
          rw [List.isEmpty_iff] at hempty
          exact hempty hnil
        refine ⟨?_, ?_, ?_, ?_, ?_, ?_, by simpa using hpat⟩
        · show (attempt g k length ul uu ud us).1.length = length
          exact attempt_length g k length ul uu ud us h4
        · exact attempt_mem g k length ul uu ud us hne
        · intro hf
          exact attempt_rep g k length ul uu ud us hf
            (by rw [hf]; simp [classSpecs]) (by decide)
        · intro hf
          exact attempt_rep g k length ul uu ud us hf
            (by rw [hf]; simp [classSpecs]) (by decide)
        · intro hf
          exact attempt_rep g k length ul uu ud us hf
            (by rw [hf]; simp [classSpecs]) (by decide)
        · intro hf
          exact attempt_rep g k length ul uu ud us hf
            (by rw [hf]; simp [classSpecs]) (by decide)

lemma gen_len_error (g : Nat → Nat) (fuel k length : Nat)
    (uu ul ud us : Bool) (hlen : length < 4) :
    generate_password g (fuel + 1) k length uu ul ud us =
      (.invalidParam "Password length must be at least 4 characters", k) := by
  rw [generate_password, if_pos hlen]

lemma buildPR_noflags_pos (g : Nat → Nat) (k : Nat) :
    (buildPR g k false false false false).2.2 = k := rfl

lemma gen_noclass_error (g : Nat → Nat) (fuel k length : Nat)
    (h4 : ¬ length < 4) :
    generate_password g (fuel + 1) k length false false false false =
      (.invalidParam "At least one character type must be selected", k) := by
  rw [generate_password, if_neg h4,
    if_pos ((buildPR_pool_empty g k false false false false).2
      ⟨rfl, rfl, rfl, rfl⟩), buildPR_noflags_pos]

lemma buildPR_not_empty (g : Nat → Nat) (k : Nat) {ul uu ud us : Bool}
    (hflag : ul = true ∨ uu = true ∨ ud = true ∨ us = true) :
    ¬ (buildPR g k ul uu ud us).1.isEmpty = true := by
  intro h
  have := (buildPR_pool_empty g k ul uu ud us).1 h
  rcases hflag with hf | hf | hf | hf <;> rw [hf] at this <;>
    simp at this

lemma gen_no_error (g : Nat → Nat) (length : Nat) {uu ul ud us : Bool}
    (h4 : ¬ length < 4)
    (hflag : ul = true ∨ uu = true ∨ ud = true ∨ us = true) :
    ∀ (fuel k : Nat),
      (generate_password g fuel k length uu ul ud us).1 = GenResult.diverge ∨
      ∃ p, (generate_password g fuel k length uu ul ud us).1 = GenResult.ok p
  | 0, k => Or.inl (by simp [generate_password])
  | fuel + 1, k => by
    rw [generate_password, if_neg h4, if_neg (buildPR_not_empty g k hflag)]
    simp only []
    by_cases hpat :
        has_predictable_patterns
          (String.mk (attempt g k length ul uu ud us).1)
    · rw [if_pos hpat]
      exact gen_no_error g length h4 hflag fuel _
    · rw [if_neg hpat]
      exact Or.inr ⟨_, rfl⟩

/-! ### Helper lemmas: outcomes of `generate_multiple_passwords` -/

lemma multi_ok_props (g : Nat → Nat) (fuel length : Nat)
    (uu ul ud us : Bool) :
    ∀ (n k k₂ : Nat) (ps : List String),
      genMultiGo g fuel length uu ul ud us n k = (MultiResult.ok ps, k₂) →
      ps.length = n ∧
      ∀ p ∈ ps, ∃ k0 k1,
        generate_password g fuel k0 length uu ul ud us = (GenResult.ok p, k1)
  | 0, k, k₂, ps, h => by
    simp only [genMultiGo, Prod.mk.injEq, MultiResult.ok.injEq] at h
    rcases h with ⟨h1, _⟩
    subst h1
    exact ⟨rfl, by intro p hp; cases hp⟩
  | n + 1, k, k₂, ps, h => by
    rw [genMultiGo] at h
    rcases hgen : generate_password g fuel k length uu ul ud us with ⟨r, k1⟩
    rw [hgen] at h
    cases r with
    | ok p =>
      simp only [] at h
      rcases hrec : genMultiGo g fuel length uu ul ud us n k1 with ⟨r2, k2'⟩
      rw [hrec] at h
      cases r2 with
      | ok ps' =>
        simp only [Prod.mk.injEq, MultiResult.ok.injEq] at h
        rcases h with ⟨h1, _⟩
        subst h1
        obtain ⟨hlen, hall⟩ :=
          multi_ok_props g fuel length uu ul ud us n k1 k2' ps' hrec
        refine ⟨by simp [hlen], ?_⟩
        intro q hq
        rcases List.mem_cons.1 hq with hq | hq
        · subst hq
          exact ⟨k, k1, hgen⟩
        · exact hall q hq
      | invalidParam m => simp at h
      | diverge => simp at h
    | invalidParam m => simp at h
    | diverge => simp at h

lemma multi_no_error (g : Nat → Nat) (fuel length : Nat) {uu ul ud us : Bool}
    (h4 : ¬ length < 4)
    (hflag : ul = true ∨ uu = true ∨ ud = true ∨ us = true) :
    ∀ (n k : Nat) (m : String),
      (genMultiGo g fuel length uu ul ud us n k).1 ≠ MultiResult.invalidParam m
  | 0, k, m => by simp [genMultiGo]
  | n + 1, k, m => by
    rw [genMultiGo]
    rcases hgen : generate_password g fuel k length uu ul ud us with ⟨r, k1⟩
    cases r with
    | ok p =>
      simp only []
      rcases hrec : genMultiGo g fuel length uu ul ud us n k1 with ⟨r2, k2'⟩
      cases r2 with
      | ok ps' => simp
      | invalidParam m2 =>
        intro hcontra
        simp only [Prod.fst] at hcontra
        have := multi_no_error g fuel length h4 hflag n k1 m2
        rw [hrec] at this
        simp at this
      | diverge => simp
    | invalidParam m2 =>
      intro hcontra
      have := gen_no_error g length h4 hflag fuel k
      rw [hgen] at this
      simp at this
    | diverge => simp

/-! ### Spec-side statements of the three pattern checks (§4.2 of the spec) -/

/-- Spec, ascending run: three consecutive symbols whose character codes
form a strictly consecutive ascending sequence. -/
def specAscendingRun (p : String) : Prop :=
  ∃ i a b c, p.data[i]? = some a ∧ p.data[i + 1]? = some b ∧
    p.data[i + 2]? = some c ∧
    b.toNat = a.toNat + 1 ∧ c.toNat = a.toNat + 2

/-- Spec, repeated run as the claim words it: some symbol repeated three or
more times consecutively (equivalently, some window of three equal
neighbours), with no restriction on which symbol. -/
def specRepeatedRun (p : String) : Prop :=
  ∃ i a, p.data[i]? = some a ∧ p.data[i + 1]? = some a ∧
    p.data[i + 2]? = some a

/-- Repeated run as the source actually implements it: the regex dot of
`(.)\1{2,}` does not match a newline, so the repeated symbol must differ
from `'\n'`. -/
def specRepeatedRunNoNewline (p : String) : Prop :=
  ∃ i a, ¬ a = '\n' ∧ p.data[i]? = some a ∧ p.data[i + 1]? = some a ∧
    p.data[i + 2]? = some a

/-- Spec, known substring: the lowercase-folded password contains a
denylisted short string. -/
def specKnownSub (p : String) : Prop :=
  ∃ pat ∈ common_patterns, pat <:+: strLower p.data

/-! ### Helper lemmas: the pattern checks decide the spec statements -/

lemma seqCheck_iff :
    ∀ l : List Char, (seqCheck l = true ↔
      ∃ i a b c, l[i]? = some a ∧ l[i + 1]? = some b ∧ l[i + 2]? = some c ∧
        b.toNat = a.toNat + 1 ∧ c.toNat = a.toNat + 2)
  | [] => by
    simp only [seqCheck, Bool.false_eq_true, false_iff]
    rintro ⟨i, a, b, c, h1, -, -, -, -⟩
    simp at h1
  | [x] => by
    simp only [seqCheck, Bool.false_eq_true, false_iff]
    rintro ⟨i, a, b, c, -, h2, -, -, -⟩
    have := (List.getElem?_eq_some_iff.1 h2).1
    simp at this
  | [x, y] => by
    simp only [seqCheck, Bool.false_eq_true, false_iff]
    rintro ⟨i, a, b, c, -, -, h3, -, -⟩
    have := (List.getElem?_eq_some_iff.1 h3).1
    simp at this
  | x :: y :: z :: rest => by
    simp only [seqCheck, Bool.or_eq_true, Bool.and_eq_true, beq_iff_eq]
    rw [seqCheck_iff (y :: z :: rest)]
    constructor
    · rintro (⟨h1, h2⟩ | ⟨i, a, b, c, ha, hb, hc, e1, e2⟩)
      · exact ⟨0, x, y, z, rfl, by simp, by simp, h1, h2⟩
      · exact ⟨i + 1, a, b, c, by simpa using ha, by simpa using hb,
          by simpa using hc, e1, e2⟩
    · rintro ⟨i, a, b, c, ha, hb, hc, e1, e2⟩
      cases i with
      | zero =>
        simp only [List.getElem?_cons_succ, List.getElem?_cons_zero,
          Option.some.injEq] at ha hb hc
        subst ha; subst hb; subst hc
        exact Or.inl ⟨e1, e2⟩
      | succ j =>
        exact Or.inr ⟨j, a, b, c, by simpa using ha, by simpa using hb,
          by simpa using hc, e1, e2⟩

lemma repCheck_iff :
    ∀ l : List Char, (repCheck l = true ↔
      ∃ i a, ¬ a = '\n' ∧ l[i]? = some a ∧ l[i + 1]? = some a ∧
        l[i + 2]? = some a)
  | [] => by
    simp only [repCheck, Bool.false_eq_true, false_iff]
    rintro ⟨i, a, -, h1, -, -⟩
    simp at h1
  | [x] => by
    simp only [repCheck, Bool.false_eq_true, false_iff]
    rintro ⟨i, a, -, -, h2, -⟩
    have := (List.getElem?_eq_some_iff.1 h2).1
    simp at this
  | [x, y] => by
    simp only [repCheck, Bool.false_eq_true, false_iff]
    rintro ⟨i, a, -, -, -, h3⟩
    have := (List.getElem?_eq_some_iff.1 h3).1
    simp at this
  | x :: y :: z :: rest => by
    simp only [repCheck, Bool.or_eq_true, Bool.and_eq_true,
      Bool.not_eq_true', beq_eq_false_iff_ne, beq_iff_eq, ne_eq]
    rw [repCheck_iff (y :: z :: rest)]
    constructor
    · rintro (⟨⟨hn, h1⟩, h2⟩ | ⟨i, a, hn, ha, hb, hc⟩)
      · subst h1; subst h2
        exact ⟨0, x, hn, rfl, by simp, by simp⟩
      · exact ⟨i + 1, a, hn, by simpa using ha, by simpa using hb,
          by simpa using hc⟩
    · rintro ⟨i, a, hn, ha, hb, hc⟩
      cases i with
      | zero =>
        simp only [List.getElem?_cons_succ, List.getElem?_cons_zero,
          Option.some.injEq] at ha hb hc
        subst ha; subst hb; subst hc
        exact Or.inl ⟨⟨hn, rfl⟩, rfl⟩
      | succ j =>
        exact Or.inr ⟨j, a, hn, by simpa using ha, by simpa using hb,
          by simpa using hc⟩

lemma hasSub_iff (pat : List Char) :
    ∀ l : List Char, (hasSub pat l = true ↔ pat <:+: l)
  | [] => by
    simp only [hasSub, List.isEmpty_iff, List.infix_nil]
  | c :: rest => by
    simp only [hasSub, Bool.or_eq_true, List.isPrefixOf_iff_prefix]
    rw [hasSub_iff pat rest, List.infix_cons_iff]

/-! ### Helper lemmas: concrete pool shape and a diverging oracle -/

lemma buildPR_pool_eq (g : Nat → Nat) (k : Nat) (ul uu ud us : Bool) :
    (buildPR g k ul uu ud us).1 =
      (if ul then lowercase else []) ++ (if uu then uppercase else []) ++
      (if ud then digits else []) ++ (if us then special_chars else []) := by
  cases ul <;> cases uu <;> cases ud <;> cases us <;>
    simp [buildPR, classSpecs, buildPR_go, classStep]

set_option maxHeartbeats 1000000 in
lemma const_oracle_step (fuel k : Nat) :
    generate_password (fun _ => 0) (fuel + 1) k 4 false true false false =
      generate_password (fun _ => 0) fuel (k + 7) 4 false true false false :=
  rfl

lemma const_oracle_diverges :
    ∀ (fuel k : Nat),
      (generate_password (fun _ => 0) fuel k 4 false true false false).1 =
        GenResult.diverge
  | 0, _ => rfl
  | fuel + 1, k => by
    rw [const_oracle_step]
    exact const_oracle_diverges fuel (k + 7)

/-! ### The claims -/

/-- C1: for every valid request (length ≥ 4 and at least one class
selected), a password returned by `generate_password` has exactly the
requested length and all of its symbols lie in the union of the selected
classes' alphabets. -/
theorem generate_length_and_alphabet (g : Nat → Nat)
    (fuel k k₂ length : Nat) (uu ul ud us : Bool) (p : String)
    (h4 : 4 ≤ length)
    (hflag : ul = true ∨ uu = true ∨ ud = true ∨ us = true)
    (h : generate_password g fuel k length uu ul ud us =
      (GenResult.ok p, k₂)) :
    p.length = length ∧
    ∀ c ∈ p.data,
      (ul = true ∧ c ∈ lowercase) ∨ (uu = true ∧ c ∈ uppercase) ∨
      (ud = true ∧ c ∈ digits) ∨ (us = true ∧ c ∈ special_chars) := by
  obtain ⟨h1, h2, -⟩ := gen_ok_props g length uu ul ud us h4 fuel k k₂ p h
  exact ⟨h1, h2⟩

/-- C1 witness: a concrete run (oracle `n ↦ n`, lowercase only, length 4)
returning `"bdca"`. -/
theorem generate_length_and_alphabet_witness :
    ("bdca" : String).length = 4 ∧
    ∀ c ∈ ("bdca" : String).data,
      (true = true ∧ c ∈ lowercase) ∨ (false = true ∧ c ∈ uppercase) ∨
      (false = true ∧ c ∈ digits) ∨ (false = true ∧ c ∈ special_chars) :=
  generate_length_and_alphabet (fun n => n) 1 0 7 4 false true false false
    "bdca" (by decide) (Or.inl rfl) (by decide)

/-- C2: for every valid request, the returned password contains at least
one symbol from each selected class's alphabet. -/
theorem generate_class_representation (g : Nat → Nat)
    (fuel k k₂ length : Nat) (uu ul ud us : Bool) (p : String)
    (h4 : 4 ≤ length)
    (h : generate_password g fuel k length uu ul ud us =
      (GenResult.ok p, k₂)) :
    (ul = true → ∃ c ∈ p.data, c ∈ lowercase) ∧
    (uu = true → ∃ c ∈ p.data, c ∈ uppercase) ∧
    (ud = true → ∃ c ∈ p.data, c ∈ digits) ∧
    (us = true → ∃ c ∈ p.data, c ∈ special_chars) := by
  obtain ⟨-, -, h3, h4', h5, h6, -⟩ :=
    gen_ok_props g length uu ul ud us h4 fuel k k₂ p h
  exact ⟨h3, h4', h5, h6⟩

/-- C2 witness: a concrete run with all four classes selected, length 12,
returning `"Bkifjh$lge2a"`, which indeed has a symbol of each class. -/
theorem generate_class_representation_witness :
    (true = true → ∃ c ∈ ("Bkifjh$lge2a" : String).data, c ∈ lowercase) ∧
    (true = true → ∃ c ∈ ("Bkifjh$lge2a" : String).data, c ∈ uppercase) ∧
    (true = true → ∃ c ∈ ("Bkifjh$lge2a" : String).data, c ∈ digits) ∧
    (true = true → ∃ c ∈ ("Bkifjh$lge2a" : String).data, c ∈ special_chars) :=
  generate_class_representation (fun n => n) 1 0 23 12 true true true true
    "Bkifjh$lge2a" (by decide) (by decide)

/-- C3: every password returned by `generate_password` passes the pattern
check: `_has_predictable_patterns` is false on it. -/
theorem generate_passes_pattern_check (g : Nat → Nat)
    (fuel k k₂ length : Nat) (uu ul ud us : Bool) (p : String)
    (h4 : 4 ≤ length)
    (h : generate_password g fuel k length uu ul ud us =
      (GenResult.ok p, k₂)) :
    has_predictable_patterns p = false :=
  (gen_ok_props g length uu ul ud us h4 fuel k k₂ p h).2.2.2.2.2.2

/-- C3 witness: the concrete run (oracle `n ↦ 2n`, lowercase only, length 4)
returns `"egca"`, on which the pattern check is false. -/
theorem generate_passes_pattern_check_witness :
    has_predictable_patterns "egca" = false :=
  generate_passes_pattern_check (fun n => 2 * n) 1 0 7 4 false true false false
    "egca" (by decide) (by decide)

/-- C4 counterexample: at `"\n\n\n"` the check returns false — the regex
dot of `(.)\1{2,}` does not match a newline, the code scan finds no
ascending run, and no denylist entry occurs — while the claim's condition
(2), a symbol repeated three or more times consecutively, does hold.  So
the claimed equivalence fails at this string. -/
theorem pattern_check_iff_spec_counterexample :
    has_predictable_patterns "\n\n\n" = false ∧
    (specAscendingRun "\n\n\n" ∨ specRepeatedRun "\n\n\n" ∨
      specKnownSub "\n\n\n") :=
  ⟨by decide,
   Or.inr (Or.inl ⟨0, '\n', by decide, by decide, by decide⟩)⟩

/-- C4 amended: `_has_predictable_patterns` returns true exactly when the
password has an ascending run of three consecutive codes, a symbol OTHER
THAN NEWLINE repeated three or more times consecutively (the regex dot
excludes `'\n'`), or a denylisted substring in its lowercase folding. -/
theorem pattern_check_iff_spec (p : String) :
    has_predictable_patterns p = true ↔
      specAscendingRun p ∨ specRepeatedRunNoNewline p ∨ specKnownSub p := by
  unfold has_predictable_patterns specAscendingRun specRepeatedRunNoNewline
    specKnownSub
  simp only [Bool.or_eq_true, List.any_eq_true, seqCheck_iff, repCheck_iff,
    hasSub_iff]
  exact or_assoc

/-- C5: `generate_password` raises `ValueError` exactly when the length is
below 4 or no class is selected (with the message naming the constraint,
returned at once, no internal retry), and `generate_multiple_passwords`
raises it for `count < 1`; under valid parameters neither operation ever
returns a parameter error. -/
theorem invalid_parameter_errors (g : Nat → Nat)
    (fuel k length count : Nat) (uu ul ud us : Bool) :
    (length < 4 →
      generate_password g (fuel + 1) k length uu ul ud us =
        (GenResult.invalidParam
          "Password length must be at least 4 characters", k)) ∧
    (¬ length < 4 → ul = false → uu = false → ud = false → us = false →
      generate_password g (fuel + 1) k length uu ul ud us =
        (GenResult.invalidParam
          "At least one character type must be selected", k)) ∧
    (¬ length < 4 → (ul = true ∨ uu = true ∨ ud = true ∨ us = true) →
      ∀ m, (generate_password g (fuel + 1) k length uu ul ud us).1 ≠
        GenResult.invalidParam m) ∧
    (count < 1 →
      generate_multiple_passwords g fuel k count length uu ul ud us =
        (MultiResult.invalidParam "Count must be at least 1", k)) ∧
    (1 ≤ count → ¬ length < 4 →
      (ul = true ∨ uu = true ∨ ud = true ∨ us = true) →
      ∀ m, (generate_multiple_passwords g fuel k count length uu ul ud us).1 ≠
        MultiResult.invalidParam m) := by
  refine ⟨?_, ?_, ?_, ?_, ?_⟩
  · exact fun h => gen_len_error g fuel k length uu ul ud us h
  · intro h4 h1 h2 h3 h5
    subst h1; subst h2; subst h3; subst h5
    exact gen_noclass_error g fuel k length h4
  · intro h4 hflag m
    rcases gen_no_error g length h4 hflag (fuel + 1) k with h | ⟨p, h⟩ <;>
      rw [h] <;> simp
  · intro hc
    rw [generate_multiple_passwords, if_pos hc]
  · intro hc h4 hflag m
    rw [generate_multiple_passwords, if_neg (by omega)]
    exact multi_no_error g fuel length h4 hflag count k m

/-- C5 witness: the three errors observed at concrete invalid inputs. -/
theorem invalid_parameter_errors_witness :
    generate_password (fun _ => 0) 1 5 3 true true true true =
      (GenResult.invalidParam
        "Password length must be at least 4 characters", 5) ∧
    generate_password (fun _ => 0) 1 5 8 false false false false =
      (GenResult.invalidParam
        "At least one character type must be selected", 5) ∧
    generate_multiple_passwords (fun _ => 0) 1 5 0 8 false true false false =
      (MultiResult.invalidParam "Count must be at least 1", 5) :=
  ⟨(invalid_parameter_errors (fun _ => 0) 0 5 3 0 true true true true).1
      (by decide),
   (invalid_parameter_errors (fun _ => 0) 0 5 8 0 false false false false).2.1
      (by decide) rfl rfl rfl rfl,
   (invalid_parameter_errors (fun _ => 0) 1 5 8 0 false true false false).2.2.2.1
      (by decide)⟩

/-- C6 counterexample: the retry loop is NOT capped.  For the valid request
(length 4, lowercase selected) and the all-zero draw sequence, every attempt
produces `"aaaa"`, the pattern check rejects it, and the call never returns,
whatever attempt budget it is granted. -/
theorem retry_cap_counterexample :
    4 ≤ 4 ∧ (true = true ∨ false = true ∨ false = true ∨ false = true) ∧
    neverTerminates (fun _ => 0) 0 4 false true false false :=
  ⟨le_refl 4, Or.inl rfl, fun fuel => const_oracle_diverges fuel 0⟩

/-- C6 amended: the retry loop is uncapped recursion, so `generate_password`
is not total over all draw sequences; what holds is that on valid
parameters every run either returns a password or is still retrying — no
other outcome (in particular no error and no wrong result) is possible. -/
theorem generate_valid_ok_or_diverge (g : Nat → Nat)
    (fuel k length : Nat) (uu ul ud us : Bool)
    (h4 : 4 ≤ length)
    (hflag : ul = true ∨ uu = true ∨ ud = true ∨ us = true) :
    (generate_password g fuel k length uu ul ud us).1 = GenResult.diverge ∨
    ∃ p, (generate_password g fuel k length uu ul ud us).1 =
      GenResult.ok p :=
  gen_no_error g length (by omega) hflag fuel k

/-- C6 amended witness: at the oracle `n ↦ n` the same valid request
terminates with a password. -/
theorem generate_valid_ok_or_diverge_witness :
    (generate_password (fun n => n) 1 0 4 false true false false).1 =
      GenResult.diverge ∨
    ∃ p, (generate_password (fun n => n) 1 0 4 false true false false).1 =
      GenResult.ok p :=
  generate_valid_ok_or_diverge (fun n => n) 1 0 4 false true false false
    (by decide) (Or.inl rfl)

/-- C7: for every valid request and `count ≥ 1`, a successful
`generate_multiple_passwords` returns exactly `count` passwords, each the
result of an individual `generate_password` call; and a failing individual
call (here: invalid length) fails the whole batch immediately with no
partial result. -/
theorem generate_many_batch (g : Nat → Nat)
    (fuel k k₂ length count : Nat) (uu ul ud us : Bool) (ps : List String)
    (hcount : 1 ≤ count) :
    (generate_multiple_passwords g fuel k count length uu ul ud us =
        (MultiResult.ok ps, k₂) →
      ps.length = count ∧
      ∀ p ∈ ps, ∃ k0 k1,
        generate_password g fuel k0 length uu ul ud us =
          (GenResult.ok p, k1)) ∧
    (length < 4 → ∀ fuel2 : Nat,
      generate_multiple_passwords g (fuel2 + 1) k count length uu ul ud us =
        (MultiResult.invalidParam
          "Password length must be at least 4 characters", k)) := by
  constructor
  · intro h
    rw [generate_multiple_passwords, if_neg (by omega)] at h
    exact multi_ok_props g fuel length uu ul ud us count k k₂ ps h
  · intro hlen fuel2
    rw [generate_multiple_passwords, if_neg (by omega)]
    cases count with
    | zero => omega
    | succ n =>
      rw [genMultiGo, gen_len_error g fuel2 k length uu ul ud us hlen]

/-- C7 witness: a concrete batch of 2 valid passwords, each produced by an
individual `generate_password` call. -/
theorem generate_many_batch_witness :
    (["bdca", "jihk"] : List String).length = 2 ∧
    ∀ p ∈ (["bdca", "jihk"] : List String), ∃ k0 k1,
      generate_password (fun n => n) 1 k0 4 false true false false =
        (GenResult.ok p, k1) :=
  (generate_many_batch (fun n => n) 1 0 14 4 2 false true false false
    ["bdca", "jihk"] (by decide)).1 (by decide)

/-- C8: the four class alphabets are pairwise disjoint, and every character
pool built from selected classes has no duplicate symbols. -/
theorem alphabets_disjoint_pool_nodup :
    (∀ c ∈ lowercase, c ∉ uppercase ∧ c ∉ digits ∧ c ∉ special_chars) ∧
    (∀ c ∈ uppercase, c ∉ digits ∧ c ∉ special_chars) ∧
    (∀ c ∈ digits, c ∉ special_chars) ∧
    ∀ (g : Nat → Nat) (k : Nat) (ul uu ud us : Bool),
      ((buildPR g k ul uu ud us).1).Nodup := by
  refine ⟨by decide, by decide, by decide, ?_⟩
  intro g k ul uu ud us
  rw [buildPR_pool_eq g k ul uu ud us]
  cases ul <;> cases uu <;> cases ud <;> cases us <;> decide

/-- C8 witness: disjointness at `'a'` and a concrete all-classes pool with
no duplicates. -/
theorem alphabets_disjoint_pool_nodup_witness :
    ('a' ∉ uppercase ∧ 'a' ∉ digits ∧ 'a' ∉ special_chars) ∧
    ((buildPR (fun n => n) 0 true true true true).1).Nodup :=
  ⟨alphabets_disjoint_pool_nodup.1 'a' (by decide),
   alphabets_disjoint_pool_nodup.2.2.2 (fun n => n) 0 true true true true⟩

/-- C9: no string of length at most 2 is ever flagged as predictable: all
three checks need a window of at least three characters. -/
theorem short_string_not_predictable (p : String) (h : p.length ≤ 2) :
    has_predictable_patterns p = false := by
  obtain ⟨l⟩ := p
  have hlen : l.length ≤ 2 := by simpa using h
  rw [Bool.eq_false_iff]
  intro htrue
  unfold has_predictable_patterns at htrue
  simp only [Bool.or_eq_true, List.any_eq_true] at htrue
  rcases htrue with (hs | hr) | ⟨pat, hpat, hsub⟩
  · obtain ⟨i, a, b, c, -, -, h3, -, -⟩ := (seqCheck_iff _).1 hs
    have hb : i + 2 < l.length := (List.getElem?_eq_some_iff.1 h3).1
    omega
  · obtain ⟨i, a, -, -, -, h3⟩ := (repCheck_iff _).1 hr
    have hb : i + 2 < l.length := (List.getElem?_eq_some_iff.1 h3).1
    omega
  · have hinf := (hasSub_iff pat _).1 hsub
    have hple : pat.length ≤ l.length := by
      have := hinf.sublist.length_le
      simpa [strLower] using this
    have hp3 : pat.length = 3 := by
      simp only [common_patterns, List.mem_cons, List.not_mem_nil,
        or_false] at hpat
      rcases hpat with h' | h' | h' | h' | h' | h' | h' <;> subst h' <;> rfl
    omega

/-- C9 witness: the two-character string `"ab"` is not flagged. -/
theorem short_string_not_predictable_witness :
    has_predictable_patterns "ab" = false :=
  short_string_not_predictable "ab" (by decide)

/-- C10: with `length < 4` the length error is raised whatever the class
flags are (even all false), and conversely the no-class error can only be
observed when `length ≥ 4`: the length check precedes the class check. -/
theorem length_check_precedes_class_check (g : Nat → Nat)
    (fuel k length : Nat) (uu ul ud us : Bool) :
    (length < 4 →
      generate_password g (fuel + 1) k length uu ul ud us =
        (GenResult.invalidParam
          "Password length must be at least 4 characters", k)) ∧
    ((generate_password g (fuel + 1) k length uu ul ud us).1 =
        GenResult.invalidParam
          "At least one character type must be selected" →
      4 ≤ length) := by
  constructor
  · exact gen_len_error g fuel k length uu ul ud us
  · intro hres
    by_contra hge
    have hlt : length < 4 := by omega
    rw [gen_len_error g fuel k length uu ul ud us hlt] at hres
    have hres2 : GenResult.invalidParam
        "Password length must be at least 4 characters" =
      GenResult.invalidParam
        "At least one character type must be selected" := hres
    exact absurd hres2 (by decide)

/-- C10 witness: length 3 with no class selected still reports the length
error, and the no-class error at length 8 implies `4 ≤ 8`. -/
theorem length_check_precedes_class_check_witness :
    generate_password (fun _ => 0) 1 2 3 false false false false =
      (GenResult.invalidParam
        "Password length must be at least 4 characters", 2) ∧
    4 ≤ 8 :=
  ⟨(length_check_precedes_class_check
      (fun _ => 0) 0 2 3 false false false false).1 (by decide),
   (length_check_precedes_class_check
      (fun _ => 0) 0 0 8 false false false false).2 (by decide)⟩

end SecurePasswordGenerator
